import Mathlib

/-!
Verification of the genworlds event-driven coordination kernel.

Shallow embedding of:
- `genworlds/events/abstracts/event.py` (the Event data model),
- `genworlds/agents/abstracts/agent.py` (`AbstractAgent.think_n_do`, the
  agent control loop),
- `yeager_core/agents/yeager_autogpt/agent.py` (`YeagerAutoGPT.__init__`
  event-type wiring and `YeagerAutoGPT.think`, the legacy control loop),
- `agents_creator_lab/world_setup_n_launch.py` (initial ownership
  configuration),
together with spec-modelled components whose bodies are not in the sources
(the Action Validator `validate_action` and the Entity Registry).
-/

namespace Genworlds

/-! ## Event data model (`genworlds/events/abstracts/event.py`)

`AbstractEvent` is a pydantic model with instance fields `summary`,
`created_at`, `sender_id`, `target_id`; `event_type` is an abstract
class-level property, not an instance field, so it is fixed by the concrete
class chosen at construction.  We carry the class as the `eventClass` tag. -/

structure AbstractEvent where
  eventClass : String
  summary : Option String
  created_at : Nat
  sender_id : String
  target_id : Option String
  deriving DecidableEq, Repr

/-- `event_type` of an event: determined solely by its concrete class tag. -/
def eventType (e : AbstractEvent) : String := e.eventClass

/-- Assignment to the pydantic instance field `summary`. -/
def setSummary (e : AbstractEvent) (v : Option String) : AbstractEvent :=
  { e with summary := v }

/-- Assignment to the pydantic instance field `created_at`. -/
def setCreatedAt (e : AbstractEvent) (v : Nat) : AbstractEvent :=
  { e with created_at := v }

/-- Assignment to the pydantic instance field `sender_id`. -/
def setSenderId (e : AbstractEvent) (v : String) : AbstractEvent :=
  { e with sender_id := v }

/-- Assignment to the pydantic instance field `target_id`. -/
def setTargetId (e : AbstractEvent) (v : Option String) : AbstractEvent :=
  { e with target_id := v }

/-! ## Action schemas and the Action Validator -/

/-- An action schema: the capability an entity exposes.  Carries the
`event_type` it would emit, a description, the declared executor and a
validation predicate over the proposed event (closing over the current
world state), following spec section 4.4 and the design notes. -/
structure ActionSchema where
  eventType : String
  description : String
  executorId : String
  predicate : AbstractEvent → Bool

/-- Failures of the Action Validator (spec section 7 taxonomy). -/
inductive ValidationFailure
  | UnknownAction
  | InvalidAction
  deriving DecidableEq, Repr

/-- Modelled from the spec: the body of
`genworlds.agents.utils.validate_action` is not under the sources (only its
call site in `AbstractAgent.think_n_do` is).  Spec section 4.4:
1. fail with `UnknownAction` when no schema in `available_schemas` matches
   the proposed action by `event_type`;
2. fail with `InvalidAction` when the matching schema's validation
   predicate is unmet;
3. when the schema's declared executor is the proposing agent itself,
   return `is_local = true` with the constructed event;
4. otherwise return `is_local = false` with the event addressed via
   `target_id` to the entity that must execute it. -/
def validate (agentId : String) (proposed : AbstractEvent)
    (schemas : List ActionSchema) :
    Except ValidationFailure (Bool × AbstractEvent) :=
  match schemas.find? (fun t => t.eventType == eventType proposed) with
  | none => .error .UnknownAction
  | some s =>
      if s.predicate proposed then
        if s.executorId == agentId then
          .ok (true, proposed)
        else
          .ok (false, setTargetId proposed (some s.executorId))
      else
        .error .InvalidAction

/-! ## The agent control loop (`AbstractAgent.think_n_do`) -/

/-- The derived per-agent world state consumed by the loop; the tick only
reads `available_action_schemas` from it. -/
structure WorldState where
  availableActionSchemas : List ActionSchema

/-- The environment of one tick of `think_n_do`: the sleep flag read from
`state_manager.state.is_asleep`, the outcome of
`state_manager.get_updated_state()`, of
`action_planner.plan_next_action(state)` (the planner returns the schema
and the pre-filled event; we carry the proposed event, whose class tag is
the schema's event_type), and of running the selected local action
(`self.actions.index` lookup plus the action call).  An `Except.error`
models a raised Python exception. -/
structure TickEnv where
  isAsleep : Bool
  perceive : Except String WorldState
  plan : WorldState → Except String AbstractEvent
  execute : AbstractEvent → Except String Unit

/-- Observable effects of one tick of `think_n_do`.  Modelled from the
spec: the body of `AbstractAction.__call__` is not under the sources, and
spec section 4.5 says a local action executes its side effect and then
broadcasts the resulting event, so a successful local dispatch emits
`execSideEffect` followed by `sendEvent`. -/
inductive Eff
  | sleepHalf
  | getUpdatedState
  | planNextAction
  | validateAction
  | execSideEffect (ev : AbstractEvent)
  | sendEvent (ev : AbstractEvent)
  | printError (msg : String)
  deriving DecidableEq, Repr

/-- Outcome of one tick of `think_n_do`. -/
inductive TickResult
  | slept
  | actedLocal (ev : AbstractEvent)
  | sent (ev : AbstractEvent)
  | caught (msg : String)
  deriving DecidableEq, Repr

/-- The log line printed by the loop's catch-all handler. -/
def logMsg (m : String) : String := "Error in think_n_do: " ++ m

/-- Rendering of a validator failure as the raised exception's message. -/
def failureMessage : ValidationFailure → String
  | .UnknownAction => "UnknownAction"
  | .InvalidAction => "InvalidAction"

/-- One tick of the `while True` body of `AbstractAgent.think_n_do`:
if `is_asleep`, sleep half a second; otherwise perceive, plan, validate,
and either run the selected local action (side effect then broadcast) or
send the event to its executor; any exception in a phase is caught by the
tick's `except` clause and printed. -/
def thinkNDoTick (agentId : String) (env : TickEnv) :
    TickResult × List Eff :=
  if env.isAsleep then
    (.slept, [.sleepHalf])
  else
    match env.perceive with
    | .error m =>
        (.caught (logMsg m), [.getUpdatedState, .printError (logMsg m)])
    | .ok st =>
        match env.plan st with
        | .error m =>
            (.caught (logMsg m),
             [.getUpdatedState, .planNextAction, .printError (logMsg m)])
        | .ok proposed =>
            match validate agentId proposed st.availableActionSchemas with
            | .error f =>
                (.caught (logMsg (failureMessage f)),
                 [.getUpdatedState, .planNextAction, .validateAction,
                  .printError (logMsg (failureMessage f))])
            | .ok (true, trig) =>
                match env.execute trig with
                | .error m =>
                    (.caught (logMsg m),
                     [.getUpdatedState, .planNextAction, .validateAction,
                      .printError (logMsg m)])
                | .ok _ =>
                    (.actedLocal trig,
                     [.getUpdatedState, .planNextAction, .validateAction,
                      .execSideEffect trig, .sendEvent trig])
            | .ok (false, trig) =>
                (.sent trig,
                 [.getUpdatedState, .planNextAction, .validateAction,
                  .sendEvent trig])

/-- The `while True` loop of `think_n_do`: it recurses unconditionally on
every tick outcome (the catch-all `except` never lets an exception escape),
so running it for `n` ticks always produces `n` results. -/
def runThinkNDo (agentId : String) (envs : Nat → TickEnv) : Nat → List TickResult
  | 0 => []
  | n + 1 => (thinkNDoTick agentId (envs n)).1 :: runThinkNDo agentId envs n

/-- The events a tick hands to the local executor or to the broker. -/
def eventsOf : List Eff → List AbstractEvent
  | [] => []
  | Eff.execSideEffect ev :: rest => ev :: eventsOf rest
  | Eff.sendEvent ev :: rest => ev :: eventsOf rest
  | _ :: rest => eventsOf rest

/-- The event constructed by the Action Validator during a tick, when all
phases up to validation succeed. -/
def validatedEvent (agentId : String) (env : TickEnv) : Option AbstractEvent :=
  if env.isAsleep then none
  else
    match env.perceive with
    | .error _ => none
    | .ok st =>
        match env.plan st with
        | .error _ => none
        | .ok proposed =>
            match validate agentId proposed st.availableActionSchemas with
            | .error _ => none
            | .ok (_, trig) => some trig

/-! ## The legacy control loop (`YeagerAutoGPT.think`) -/

/-- The action parsed from the assistant reply by `AutoGPTOutputParser`:
the terminal FINISH command, a named command with arguments, or the
parser's ERROR marker. -/
inductive PlannedAction
  | finish (response : String)
  | cmd (nm : String) (args : String)
  | errAction (args : String)

/-- The environment of one iteration of `YeagerAutoGPT.think`'s
`while True` loop.  `planReply` is the composite of `chain.run` on the
message history, `json.loads` and `output_parser.parse`; an `Except.error`
models an exception raised there, which the loop does not catch.
`runTool` models `tool.run`, whose exceptions ARE caught.  `feedback`
models the reply of `feedback_tool.run` when a feedback tool is present
(the constructor in the source in fact always sets `feedback_tool = None`). -/
structure ThinkEnv where
  planReply : List String → Except String PlannedAction
  toolNames : List String
  runTool : String → String → Except String String
  feedback : Option String

/-- Outcome of one iteration of `YeagerAutoGPT.think`'s loop body:
the loop returns a response, continues carrying the result observation
into the message history, or is terminated by an uncaught exception. -/
inductive ThinkStep
  | finished (response : String)
  | continued (result : String)
  | crashed (msg : String)
  deriving Repr

/-- The tail of the loop body after `result` is computed, following the
source lines 219-224 exactly: when a feedback tool is present, its reply
is prefixed with a newline (`feedback` is built by an f-string starting
with a backslash-n) before the membership test against q and stop, so the
EXITING return is taken only if the newline-prefixed string equals q or
stop — which no reply can achieve; otherwise the result is fed into the
message history and the loop continues.  (Line 140 of `__init__` moreover
hard-codes `feedback_tool` to None, so the `none` branch is the live one.) -/
def afterFeedback (env : ThinkEnv) (result : String) : ThinkStep :=
  match env.feedback with
  | some fb => if ("\n" ++ fb) = "q" ∨ ("\n" ++ fb) = "stop" then
                 .finished "EXITING"
               else .continued result
  | none => .continued result

/-- One iteration of `YeagerAutoGPT.think`'s `while True` body: plan (an
exception here is uncaught and crashes the loop), return on FINISH, run a
known tool catching its exceptions into an error observation, report the
parser's ERROR marker, or report an unknown command; every non-terminal
branch feeds its result string back as an observation. -/
def thinkTick (env : ThinkEnv) (hist : List String) : ThinkStep :=
  match env.planReply hist with
  | .error m => .crashed m
  | .ok (.finish r) => .finished r
  | .ok (.errAction args) => afterFeedback env ("Error: " ++ args ++ ". ")
  | .ok (.cmd nm args) =>
      if nm ∈ env.toolNames then
        match env.runTool nm args with
        | .ok obs =>
            afterFeedback env ("Command " ++ nm ++ " returned: " ++ obs)
        | .error m =>
            afterFeedback env
              ("Command " ++ nm ++ " returned: Error: " ++ m
                ++ ", args: " ++ args)
      else
        afterFeedback env
          ("Unknown command " ++ nm
            ++ ". Please refer to the COMMANDS list for available commands"
            ++ " and only respond in the specified JSON format.")

/-- Final outcome of running `YeagerAutoGPT.think` for a bounded number of
iterations. -/
inductive ThinkRunOutcome
  | outOfFuel
  | finishedRun (response : String)
  | crashedRun (msg : String)
  deriving Repr

/-- Running `YeagerAutoGPT.think`'s loop: a continued iteration appends
its result observation to the message history consumed by the next
planning call; a FINISH returns; an uncaught exception terminates the
loop. -/
def runThink (envs : Nat → ThinkEnv) :
    Nat → Nat → List String → ThinkRunOutcome × List String
  | 0, _, hist => (.outOfFuel, hist)
  | fuel + 1, i, hist =>
      match thinkTick (envs i) hist with
      | .finished r => (.finishedRun r, hist)
      | .crashed m => (.crashedRun m, hist)
      | .continued result => runThink envs fuel (i + 1) (hist ++ [result])

/-! ## `YeagerAutoGPT.__init__` event-type wiring -/

/-- The six built-in event types appended by `YeagerAutoGPT.__init__` to
the caller's `important_event_types` list. -/
def builtinImportantEventTypes : List String :=
  ["agent_gets_nearby_entities_event", "world_sends_nearby_entities_event",
   "agent_gets_object_info", "agent_gets_agent_info",
   "agent_interacts_with_object", "agent_interacts_with_agent"]

/-- Python list objects as mutable heap cells, so the in-place `extend`
and the aliasing between the caller's list, `self.important_event_types`
and the antenna's interest set can be stated. -/
structure PyHeap where
  cells : Nat → List String

/-- In-place `list.extend`: mutates the cell named by `r`. -/
def extendCell (h : PyHeap) (r : Nat) (xs : List String) : PyHeap :=
  { cells := fun i => if i = r then h.cells i ++ xs else h.cells i }

/-- The references held after `__init__` runs: `self.important_event_types`
and the list handed to `ListeningAntenna`. -/
structure YeagerEventTypeRefs where
  importantEventTypesRef : Nat
  antennaInterestRef : Nat

/-- The event-type wiring of `YeagerAutoGPT.__init__`:
`self.important_event_types = important_event_types` aliases the caller's
list object; `important_event_types.extend([...])` then mutates that one
object in place; `ListeningAntenna(self.important_event_types, ...)`
receives the same object. -/
def yeagerInitEventWiring (h : PyHeap) (callerRef : Nat) :
    PyHeap × YeagerEventTypeRefs :=
  (extendCell h callerRef builtinImportantEventTypes,
   { importantEventTypesRef := callerRef, antennaInterestRef := callerRef })

/-! ## Entity Registry -/

/-- A structurally significant transfer event: `eventId` identifies the
event for deduplication, `objectId` the transferred object, `fromId` the
claimed current holder, `toId` the recipient. -/
structure TransferEvent where
  eventId : String
  objectId : String
  fromId : String
  toId : String
  deriving DecidableEq, Repr

/-- Modelled from the spec: the Entity Registry's bookkeeping state is not
under the sources (only the orchestrator's initial ownership configuration
is).  Which entities exist, their `location`, `heldBy` and per-agent
`inventory` follow spec sections 2 and 3; `lastApplied` tracks the
last-applied event id per affected entity pair, spec section 4.2. -/
structure RegistryState where
  present : String → Bool
  location : String → Option String
  heldBy : String → Option String
  inventory : String → List String
  lastApplied : String × String → Option String

/-- Removing the transferred object from the giver's inventory. -/
def removeFromGiver (s : RegistryState) (e : TransferEvent) (a : String) :
    List String :=
  if a = e.fromId then (s.inventory a).erase e.objectId else s.inventory a

/-- The registry state after a successful transfer: the object moves to the
recipient's inventory, `held_by` is retargeted, and the event id is
recorded for the affected pair. -/
def transferUpdate (s : RegistryState) (e : TransferEvent) : RegistryState :=
  { s with
    heldBy := fun o => if o = e.objectId then some e.toId else s.heldBy o
    inventory := fun a =>
      if a = e.toId then e.objectId :: removeFromGiver s e a
      else removeFromGiver s e a
    lastApplied := fun k =>
      if k = (e.objectId, e.toId) then some e.eventId else s.lastApplied k }

/-- Modelled from the spec: `apply` for object-transfer events (spec
sections 4.2 and 5).  A duplicate delivery of an already-applied event id
is a no-op; the compare-and-swap style check (object still held by the
claimed holder) makes a losing concurrent transfer a no-op
(`RegistryConflict`); otherwise the transfer is performed. -/
def applyTransfer (s : RegistryState) (e : TransferEvent) : RegistryState :=
  if s.lastApplied (e.objectId, e.toId) = some e.eventId then s
  else if s.heldBy e.objectId = some e.fromId then transferUpdate s e
  else s

/-- Applying a whole sequence of give/take transfer events. -/
def applyAll (s : RegistryState) : List TransferEvent → RegistryState
  | [] => s
  | e :: es => applyAll (applyTransfer s e) es

/-- The holder/inventory consistency invariant of spec section 3: each
inventory is duplicate-free and an object is in an agent's inventory
exactly when its `held_by` names that agent. -/
def Inv (s : RegistryState) : Prop :=
  (∀ a, (s.inventory a).Nodup) ∧
  (∀ o a, s.heldBy o = some a ↔ o ∈ s.inventory a)

/-- Modelled from the spec: the closed set of structurally significant
event types of spec section 4.2 — entity moved, object transferred,
entity created, entity destroyed — plus a case for every other event
type, which passes through without mutating the registry. -/
inductive RegistryEvent
  | transferred (e : TransferEvent)
  | moved (eventId entityId newLocation : String)
  | created (eventId entityId location : String)
  | destroyed (eventId entityId : String)
  | other (eventId eventTypeTag : String)
  deriving DecidableEq, Repr

/-- Recording the last-applied event id for an affected entity pair. -/
def recordApplied (s : RegistryState) (key : String × String)
    (eid : String) : RegistryState :=
  { s with lastApplied := fun k =>
      if k = key then some eid else s.lastApplied k }

/-- Modelled from the spec: `apply` over the full closed set of
structurally significant event types (spec section 4.2).  Every case first
consults the last-applied event id recorded for the affected entity pair,
so an at-least-once redelivery of the same event id within a session is a
no-op; every other event type passes through unmutated. -/
def applyEvent (s : RegistryState) : RegistryEvent → RegistryState
  | .transferred e => applyTransfer s e
  | .moved eid ent loc =>
      if s.lastApplied (ent, loc) = some eid then s
      else recordApplied
        { s with location := fun x => if x = ent then some loc else s.location x }
        (ent, loc) eid
  | .created eid ent loc =>
      if s.lastApplied (ent, loc) = some eid then s
      else recordApplied
        { s with
          present := fun x => if x = ent then true else s.present x
          location := fun x => if x = ent then some loc else s.location x }
        (ent, loc) eid
  | .destroyed eid ent =>
      if s.lastApplied (ent, ent) = some eid then s
      else recordApplied
        { s with
          present := fun x => if x = ent then false else s.present x
          location := fun x => if x = ent then none else s.location x
          heldBy := fun o => if o = ent then none else s.heldBy o
          inventory := fun a => (s.inventory a).erase ent }
        (ent, ent) eid
  | .other _ _ => s

/-- Initial ownership from `agents_creator_lab/world_setup_n_launch.py`:
the microphone object is configured with `held_by` the podcast host
(`podcast_host.id = "maria"`); the host and the guest (`"jimmy"`) are at
the single location `"roundtable"` and the guest holds nothing. -/
def initialRegistry : RegistryState :=
  { present := fun x =>
      x == "microphone" || x == "maria" || x == "jimmy" || x == "world"
    location := fun x =>
      if x = "maria" ∨ x = "jimmy" then some "roundtable" else none
    heldBy := fun o => if o = "microphone" then some "maria" else none
    inventory := fun a => if a = "maria" then ["microphone"] else []
    lastApplied := fun _ => none }

/-! ## Concrete demonstration inputs -/

/-- A proposed "speak into the microphone" event. -/
def demoProposed : AbstractEvent := ⟨"speak", none, 0, "maria", none⟩

/-- A local schema: the proposing agent is the declared executor. -/
def demoSchemaLocal : ActionSchema :=
  ⟨"speak", "speak into the mic", "maria", fun _ => true⟩

/-- A forwarded schema: the world is the declared executor. -/
def demoSchemaWorld : ActionSchema :=
  ⟨"get_nearby", "ask the world", "world", fun _ => true⟩

/-- A proposed "get nearby entities" request. -/
def demoProposedNearby : AbstractEvent := ⟨"get_nearby", none, 0, "maria", none⟩

/-- World state exposing the local schema. -/
def demoStateLocal : WorldState := ⟨[demoSchemaLocal]⟩

/-- World state exposing the forwarded schema. -/
def demoStateWorld : WorldState := ⟨[demoSchemaWorld]⟩

/-- A sleeping agent's tick environment. -/
def envAsleep : TickEnv :=
  { isAsleep := true, perceive := .error "unused",
    plan := fun _ => .error "unused", execute := fun _ => .ok () }

/-- A tick in which every phase succeeds and the action is local. -/
def envLocalOk : TickEnv :=
  { isAsleep := false, perceive := .ok demoStateLocal,
    plan := fun _ => .ok demoProposed, execute := fun _ => .ok () }

/-- A tick in which every phase succeeds and the action is forwarded. -/
def envForwardOk : TickEnv :=
  { isAsleep := false, perceive := .ok demoStateWorld,
    plan := fun _ => .ok demoProposedNearby, execute := fun _ => .ok () }

/-- A tick whose `get_updated_state` raises. -/
def envPerceiveErr : TickEnv :=
  { isAsleep := false, perceive := .error "io",
    plan := fun _ => .error "unused", execute := fun _ => .ok () }

/-- A tick whose planner raises. -/
def envPlanErr : TickEnv :=
  { isAsleep := false, perceive := .ok demoStateLocal,
    plan := fun _ => .error "llm", execute := fun _ => .ok () }

/-- A tick proposing an action matching no available schema. -/
def envValErr : TickEnv :=
  { isAsleep := false, perceive := .ok demoStateLocal,
    plan := fun _ => .ok ⟨"fly", none, 0, "maria", none⟩,
    execute := fun _ => .ok () }

/-- A tick whose local action raises. -/
def envExecErr : TickEnv :=
  { isAsleep := false, perceive := .ok demoStateLocal,
    plan := fun _ => .ok demoProposed, execute := fun _ => .error "notfound" }

/-- A legacy-loop iteration whose planning phase raises. -/
def envBoomThink : ThinkEnv :=
  { planReply := fun _ => .error "boom", toolNames := [],
    runTool := fun _ _ => .ok "", feedback := none }

/-- A legacy-loop iteration in which the planner signals FINISH. -/
def envFinishThink : ThinkEnv :=
  { planReply := fun _ => .ok (.finish "done"), toolNames := [],
    runTool := fun _ _ => .ok "", feedback := none }

/-- A legacy-loop iteration whose tool execution raises. -/
def envToolErrThink : ThinkEnv :=
  { planReply := fun _ => .ok (.cmd "get_object_info" "oid"),
    toolNames := ["get_object_info"],
    runTool := fun _ _ => .error "KeyError", feedback := none }

/-- A transfer of the microphone from the host to the guest. -/
def demoTransfers : List TransferEvent :=
  [⟨"ev1", "microphone", "maria", "jimmy"⟩]

/-- A heap with one configured interest list at cell 0. -/
def demoHeap : PyHeap :=
  ⟨fun i => if i = 0 then ["agent_speaks_into_microphone"] else []⟩

end Genworlds

namespace Genworlds

/-! ## Helper lemmas -/

theorem runThinkNDo_length (agentId : String) (envs : Nat → TickEnv) :
    ∀ n, (runThinkNDo agentId envs n).length = n := by
  intro n
  induction n with
  | zero => rfl
  | succ k ih => simp [runThinkNDo, ih]

theorem newline_prefix_ne (fb : String) :
    ("\n" ++ fb) ≠ "q" ∧ ("\n" ++ fb) ≠ "stop" := by
  constructor
  · intro h
    have hd := congrArg String.data h
    rw [String.data_append] at hd
    simp at hd
  · intro h
    have hd := congrArg String.data h
    rw [String.data_append] at hd
    simp at hd

theorem afterFeedback_eq_continued (env : ThinkEnv) (result : String) :
    afterFeedback env result = .continued result := by
  unfold afterFeedback
  cases env.feedback with
  | none => rfl
  | some fb =>
      show (if ("\n" ++ fb) = "q" ∨ ("\n" ++ fb) = "stop" then
              ThinkStep.finished "EXITING" else ThinkStep.continued result)
          = ThinkStep.continued result
      rw [if_neg]
      intro hq
      cases hq with
      | inl h1 => exact (newline_prefix_ne fb).1 h1
      | inr h1 => exact (newline_prefix_ne fb).2 h1

theorem mem_removeFromGiver_of_ne (s : RegistryState) (e : TransferEvent)
    (a o : String) (ho : o ≠ e.objectId) :
    o ∈ removeFromGiver s e a ↔ o ∈ s.inventory a := by
  unfold removeFromGiver
  split
  · exact List.mem_erase_of_ne ho
  · exact Iff.rfl

theorem nodup_removeFromGiver (s : RegistryState) (e : TransferEvent)
    (a : String) (hnd : (s.inventory a).Nodup) :
    (removeFromGiver s e a).Nodup := by
  unfold removeFromGiver
  split
  · exact hnd.erase _
  · exact hnd

theorem objectId_not_mem_removeFromGiver (s : RegistryState)
    (e : TransferEvent) (a : String)
    (hnd : ∀ b, (s.inventory b).Nodup)
    (hiff : ∀ o b, s.heldBy o = some b ↔ o ∈ s.inventory b)
    (hcas : s.heldBy e.objectId = some e.fromId) :
    e.objectId ∉ removeFromGiver s e a := by
  unfold removeFromGiver
  split
  · exact (hnd a).not_mem_erase
  · rename_i hne
    intro hmem
    have := (hiff e.objectId a).mpr hmem
    rw [hcas] at this
    exact hne (Option.some.inj this).symm

theorem inv_transferUpdate (s : RegistryState) (e : TransferEvent)
    (hcas : s.heldBy e.objectId = some e.fromId) (h : Inv s) :
    Inv (transferUpdate s e) := by
  obtain ⟨hnd, hiff⟩ := h
  constructor
  · intro a
    show (if a = e.toId then e.objectId :: removeFromGiver s e a
          else removeFromGiver s e a).Nodup
    split
    · exact List.nodup_cons.mpr
        ⟨objectId_not_mem_removeFromGiver s e a hnd hiff hcas,
         nodup_removeFromGiver s e a (hnd a)⟩
    · exact nodup_removeFromGiver s e a (hnd a)
  · intro o a
    show (if o = e.objectId then some e.toId else s.heldBy o) = some a ↔
      o ∈ (if a = e.toId then e.objectId :: removeFromGiver s e a
           else removeFromGiver s e a)
    by_cases ho : o = e.objectId
    · subst ho
      rw [if_pos rfl]
      by_cases ha : a = e.toId
      · subst ha
        rw [if_pos rfl]
        simp
      · rw [if_neg ha]
        constructor
        · intro hsome
          exact absurd (Option.some.inj hsome) (fun hh => ha hh.symm)
        · intro hmem
          exact absurd hmem
            (objectId_not_mem_removeFromGiver s e a hnd hiff hcas)
    · rw [if_neg ho]
      have hrg := mem_removeFromGiver_of_ne s e a o ho
      by_cases ha : a = e.toId
      · subst ha
        rw [if_pos rfl]
        rw [List.mem_cons]
        constructor
        · intro hsome
          exact Or.inr (hrg.mpr ((hiff o _).mp hsome))
        · intro hmem
          cases hmem with
          | inl h1 => exact absurd h1 ho
          | inr h1 => exact (hiff o _).mpr (hrg.mp h1)
      · rw [if_neg ha]
        rw [hrg]
        exact hiff o a

theorem inv_applyTransfer (s : RegistryState) (e : TransferEvent)
    (h : Inv s) : Inv (applyTransfer s e) := by
  unfold applyTransfer
  split
  · exact h
  · split
    · rename_i hcas
      exact inv_transferUpdate s e hcas h
    · exact h

theorem inv_applyAll (s : RegistryState) (es : List TransferEvent)
    (h : Inv s) : Inv (applyAll s es) := by
  induction es generalizing s with
  | nil => exact h
  | cons e es ih => exact ih _ (inv_applyTransfer s e h)

theorem initialRegistry_inv : Inv initialRegistry := by
  constructor
  · intro a
    by_cases ha : a = "maria" <;> simp [initialRegistry, ha]
  · intro o a
    by_cases ho : o = "microphone"
    · by_cases ha : a = "maria"
      · simp [initialRegistry, ho, ha]
      · simp only [initialRegistry, ho, if_pos rfl, if_true, if_neg ha]
        constructor
        · intro hsome
          exact absurd (Option.some.inj hsome) (fun hh => ha hh.symm)
        · intro hmem
          exact absurd hmem (List.not_mem_nil _)
    · by_cases ha : a = "maria"
      · simp [initialRegistry, ho, ha]
      · simp [initialRegistry, ho, ha]

/-! ## Claim theorems -/

/-- C1: when the proposed action matches a schema by event_type and the
validation predicate holds, `validate` returns `is_local = true` with the
constructed event exactly when the matching schema's declared executor is
the proposing agent itself; otherwise it returns `is_local = false` with an
event whose `target_id` addresses the entity that must execute it. -/
theorem validate_local_iff_executor_is_agent
    (agentId : String) (proposed : AbstractEvent)
    (schemas : List ActionSchema) (s : ActionSchema)
    (hfind : schemas.find? (fun t => t.eventType == eventType proposed) = some s)
    (hpred : s.predicate proposed = true) :
    (s.executorId = agentId →
      validate agentId proposed schemas = .ok (true, proposed)) ∧
    (∀ isLocal ev, validate agentId proposed schemas = .ok (isLocal, ev) →
      (isLocal = true ↔ s.executorId = agentId)) ∧
    (s.executorId ≠ agentId →
      validate agentId proposed schemas
        = .ok (false, setTargetId proposed (some s.executorId)) ∧
      (setTargetId proposed (some s.executorId)).target_id
        = some s.executorId) := by
  unfold validate
  rw [hfind]
  simp only [hpred, if_true]
  refine ⟨?_, ?_, ?_⟩
  · intro hexec
    simp [hexec]
  · intro isLocal ev hok
    by_cases hexec : s.executorId = agentId
    · simp [hexec] at hok
      simp [hok.1, hexec]
    · simp [hexec] at hok
      simp [hok.1, hexec]
  · intro hexec
    simp [hexec, setTargetId]

/-- Concrete witness for `validate_local_iff_executor_is_agent`: a local
"speak" schema executed by the proposing agent, and a forwarded
"get nearby entities" schema executed by the world. -/
theorem validate_local_iff_executor_is_agent_witness :
    (validate "maria" demoProposed [demoSchemaLocal]
        = .ok (true, demoProposed)) ∧
    (validate "maria" demoProposedNearby [demoSchemaWorld]
        = .ok (false, ⟨"get_nearby", none, 0, "maria", some "world"⟩)) := by
  constructor
  · exact (validate_local_iff_executor_is_agent "maria" demoProposed
      [demoSchemaLocal] demoSchemaLocal rfl rfl).1 rfl
  · exact ((validate_local_iff_executor_is_agent "maria" demoProposedNearby
      [demoSchemaWorld] demoSchemaWorld rfl rfl).2.2 (by decide)).1

/-- C3: when the proposed action's event_type matches no schema in the
provided set, `validate` always returns the `UnknownAction` failure (it is
a total function, so it never raises an unhandled exception). -/
theorem validate_unknown_action
    (agentId : String) (proposed : AbstractEvent)
    (schemas : List ActionSchema)
    (h : ∀ s ∈ schemas, s.eventType ≠ eventType proposed) :
    validate agentId proposed schemas
      = .error ValidationFailure.UnknownAction := by
  have hfind : schemas.find? (fun t => t.eventType == eventType proposed)
      = none := by
    rw [List.find?_eq_none]
    intro s hs
    simpa using h s hs
  unfold validate
  rw [hfind]

/-- Concrete witness for `validate_unknown_action`: proposing an action
whose event_type matches no available schema. -/
theorem validate_unknown_action_witness :
    validate "maria" ⟨"fly", none, 0, "maria", none⟩ [demoSchemaLocal]
      = .error ValidationFailure.UnknownAction := by
  exact validate_unknown_action "maria" ⟨"fly", none, 0, "maria", none⟩
    [demoSchemaLocal]
    (by intro s hs; simp [demoSchemaLocal] at hs; simp [hs, eventType])

/-- C5: after any sequence of give/take transfer events starting from a
consistent registry, an object's `held_by` is null or a single agent id,
the object is in an agent's inventory exactly when `held_by` names that
agent, the object is in at most one inventory, and an unheld object is in
no inventory. -/
theorem registry_holder_inventory_consistency (s : RegistryState)
    (es : List TransferEvent) (h : Inv s) :
    (∀ o a, (applyAll s es).heldBy o = some a ↔
      o ∈ (applyAll s es).inventory a) ∧
    (∀ o a b, o ∈ (applyAll s es).inventory a →
      o ∈ (applyAll s es).inventory b → a = b) ∧
    (∀ o, (applyAll s es).heldBy o = none →
      ∀ a, o ∉ (applyAll s es).inventory a) := by
  obtain ⟨hnd, hiff⟩ := inv_applyAll s es h
  refine ⟨hiff, ?_, ?_⟩
  · intro o a b ha hb
    have h1 := (hiff o a).mpr ha
    have h2 := (hiff o b).mpr hb
    rw [h1] at h2
    exact Option.some.inj h2
  · intro o hnone a hmem
    have := (hiff o a).mpr hmem
    rw [hnone] at this
    cases this

/-- Concrete witness for `registry_holder_inventory_consistency`: starting
from the orchestrator's initial configuration and giving the microphone
from the host to the guest. -/
theorem registry_holder_inventory_consistency_witness :
    (applyAll initialRegistry demoTransfers).heldBy "microphone"
      = some "jimmy" ∧
    ((applyAll initialRegistry demoTransfers).heldBy "microphone"
        = some "jimmy" ↔
      "microphone" ∈ (applyAll initialRegistry demoTransfers).inventory
        "jimmy") := by
  constructor
  · rfl
  · exact (registry_holder_inventory_consistency initialRegistry
      demoTransfers initialRegistry_inv).1 "microphone" "jimmy"

/-- The transferred case of `apply` idempotence: a second application of
the same transfer event is a no-op, because the last-applied event id
recorded for the affected pair matches. -/
theorem applyTransfer_idempotent (s : RegistryState) (e : TransferEvent) :
    applyTransfer (applyTransfer s e) e = applyTransfer s e := by
  by_cases hdup : s.lastApplied (e.objectId, e.toId) = some e.eventId
  · have h1 : applyTransfer s e = s := by
      unfold applyTransfer
      rw [if_pos hdup]
    rw [h1]
    exact h1
  · by_cases hcas : s.heldBy e.objectId = some e.fromId
    · have h1 : applyTransfer s e = transferUpdate s e := by
        unfold applyTransfer
        rw [if_neg hdup, if_pos hcas]
      rw [h1]
      have h2 : (transferUpdate s e).lastApplied (e.objectId, e.toId)
          = some e.eventId := by
        simp [transferUpdate]
      unfold applyTransfer
      rw [if_pos h2]
    · have h1 : applyTransfer s e = s := by
        unfold applyTransfer
        rw [if_neg hdup, if_neg hcas]
      rw [h1]
      exact h1

/-- C6: for every structurally significant event — entity moved, object
transferred, entity created, entity destroyed — applying the same event
(same event id) to the Entity Registry twice via `apply` changes registry
state exactly once: the second application is a no-op (and events of any
other type pass through without mutating the registry at all). -/
theorem applyEvent_idempotent (s : RegistryState) (e : RegistryEvent) :
    applyEvent (applyEvent s e) e = applyEvent s e := by
  cases e with
  | transferred te => exact applyTransfer_idempotent s te
  | moved eid ent loc =>
      by_cases hdup : s.lastApplied (ent, loc) = some eid
      · have h1 : applyEvent s (.moved eid ent loc) = s := by
          simp [applyEvent, hdup]
        rw [h1]
        exact h1
      · have h1 : applyEvent s (.moved eid ent loc)
            = recordApplied
                { s with location := fun x =>
                    if x = ent then some loc else s.location x }
                (ent, loc) eid := by
          simp [applyEvent, hdup]
        rw [h1]
        simp [applyEvent, recordApplied]
  | created eid ent loc =>
      by_cases hdup : s.lastApplied (ent, loc) = some eid
      · have h1 : applyEvent s (.created eid ent loc) = s := by
          simp [applyEvent, hdup]
        rw [h1]
        exact h1
      · have h1 : applyEvent s (.created eid ent loc)
            = recordApplied
                { s with
                  present := fun x => if x = ent then true else s.present x
                  location := fun x =>
                    if x = ent then some loc else s.location x }
                (ent, loc) eid := by
          simp [applyEvent, hdup]
        rw [h1]
        simp [applyEvent, recordApplied]
  | destroyed eid ent =>
      by_cases hdup : s.lastApplied (ent, ent) = some eid
      · have h1 : applyEvent s (.destroyed eid ent) = s := by
          simp [applyEvent, hdup]
        rw [h1]
        exact h1
      · have h1 : applyEvent s (.destroyed eid ent)
            = recordApplied
                { s with
                  present := fun x => if x = ent then false else s.present x
                  location := fun x => if x = ent then none else s.location x
                  heldBy := fun o => if o = ent then none else s.heldBy o
                  inventory := fun a => (s.inventory a).erase ent }
                (ent, ent) eid := by
          simp [applyEvent, hdup]
        rw [h1]
        simp [applyEvent, recordApplied]
  | other eid tag => rfl

/-- C7: on a tick at which `is_asleep` is set, the loop only sleeps for the
fixed half-second interval: no perception, no planner call, no validation
and no action execution happen during that tick. -/
theorem asleep_tick_only_sleeps (agentId : String) (env : TickEnv)
    (h : env.isAsleep = true) :
    thinkNDoTick agentId env = (.slept, [.sleepHalf]) ∧
    Eff.getUpdatedState ∉ (thinkNDoTick agentId env).2 ∧
    Eff.planNextAction ∉ (thinkNDoTick agentId env).2 ∧
    Eff.validateAction ∉ (thinkNDoTick agentId env).2 ∧
    (∀ ev, Eff.execSideEffect ev ∉ (thinkNDoTick agentId env).2) ∧
    (∀ ev, Eff.sendEvent ev ∉ (thinkNDoTick agentId env).2) := by
  simp [thinkNDoTick, h]

/-- Concrete witness for `asleep_tick_only_sleeps`. -/
theorem asleep_tick_only_sleeps_witness :
    thinkNDoTick "maria" envAsleep = (.slept, [.sleepHalf]) ∧
    Eff.getUpdatedState ∉ (thinkNDoTick "maria" envAsleep).2 ∧
    Eff.planNextAction ∉ (thinkNDoTick "maria" envAsleep).2 ∧
    Eff.validateAction ∉ (thinkNDoTick "maria" envAsleep).2 ∧
    (∀ ev, Eff.execSideEffect ev ∉ (thinkNDoTick "maria" envAsleep).2) ∧
    (∀ ev, Eff.sendEvent ev ∉ (thinkNDoTick "maria" envAsleep).2) :=
  asleep_tick_only_sleeps "maria" envAsleep rfl

/-- C4: in the Executing step, when the validator returns
`is_local = true` the agent executes the action's local side effect and
then broadcasts the resulting event; when it returns `is_local = false`
the agent broadcasts the event without performing any local side effect. -/
theorem dispatch_local_vs_forward (agentId : String) (env : TickEnv)
    (st : WorldState) (proposed trig : AbstractEvent)
    (hw : env.isAsleep = false)
    (hp : env.perceive = .ok st)
    (hpl : env.plan st = .ok proposed) :
    (validate agentId proposed st.availableActionSchemas = .ok (true, trig) →
      env.execute trig = .ok () →
      thinkNDoTick agentId env =
        (.actedLocal trig,
         [.getUpdatedState, .planNextAction, .validateAction,
          .execSideEffect trig, .sendEvent trig])) ∧
    (validate agentId proposed st.availableActionSchemas = .ok (false, trig) →
      thinkNDoTick agentId env =
        (.sent trig,
         [.getUpdatedState, .planNextAction, .validateAction,
          .sendEvent trig]) ∧
      ∀ ev, Eff.execSideEffect ev ∉ (thinkNDoTick agentId env).2) := by
  constructor
  · intro hv hx
    simp [thinkNDoTick, hw, hp, hpl, hv, hx]
  · intro hv
    constructor
    · simp [thinkNDoTick, hw, hp, hpl, hv]
    · intro ev
      simp [thinkNDoTick, hw, hp, hpl, hv]

/-- Concrete witness for `dispatch_local_vs_forward`: a successful local
"speak" tick and a forwarded "get nearby entities" tick. -/
theorem dispatch_local_vs_forward_witness :
    thinkNDoTick "maria" envLocalOk =
      (.actedLocal demoProposed,
       [.getUpdatedState, .planNextAction, .validateAction,
        .execSideEffect demoProposed, .sendEvent demoProposed]) ∧
    thinkNDoTick "maria" envForwardOk =
      (.sent ⟨"get_nearby", none, 0, "maria", some "world"⟩,
       [.getUpdatedState, .planNextAction, .validateAction,
        .sendEvent ⟨"get_nearby", none, 0, "maria", some "world"⟩]) := by
  constructor
  · exact (dispatch_local_vs_forward "maria" envLocalOk demoStateLocal
      demoProposed demoProposed rfl rfl rfl).1 rfl rfl
  · exact ((dispatch_local_vs_forward "maria" envForwardOk demoStateWorld
      demoProposedNearby ⟨"get_nearby", none, 0, "maria", some "world"⟩
      rfl rfl rfl).2 rfl).1

/-- C2 (amended): in `AbstractAgent.think_n_do` any exception during
perception, planning, validation or execution is caught at the loop
boundary, logged, and the loop continues to every next tick, but the error
is not fed back to the planner as an observation; in `YeagerAutoGPT.think`
only tool-execution errors are caught and fed back as observations into
the next planning cycle, while an exception during planning terminates the
loop. -/
theorem control_loop_error_handling :
    (∀ agentId envs n, (runThinkNDo agentId envs n).length = n) ∧
    (∀ agentId env m, env.isAsleep = false → env.perceive = .error m →
      thinkNDoTick agentId env
        = (.caught (logMsg m),
           [.getUpdatedState, .printError (logMsg m)])) ∧
    (∀ agentId env st m, env.isAsleep = false → env.perceive = .ok st →
      env.plan st = .error m →
      (thinkNDoTick agentId env).1 = .caught (logMsg m)) ∧
    (∀ agentId env st proposed f, env.isAsleep = false →
      env.perceive = .ok st → env.plan st = .ok proposed →
      validate agentId proposed st.availableActionSchemas = .error f →
      (thinkNDoTick agentId env).1 = .caught (logMsg (failureMessage f))) ∧
    (∀ agentId env st proposed trig m, env.isAsleep = false →
      env.perceive = .ok st → env.plan st = .ok proposed →
      validate agentId proposed st.availableActionSchemas = .ok (true, trig) →
      env.execute trig = .error m →
      (thinkNDoTick agentId env).1 = .caught (logMsg m)) ∧
    (∀ env hist m, env.planReply hist = .error m →
      thinkTick env hist = .crashed m) ∧
    (∀ env hist nm args m, env.planReply hist = .ok (.cmd nm args) →
      nm ∈ env.toolNames → env.runTool nm args = .error m →
      env.feedback = none →
      thinkTick env hist = .continued
        ("Command " ++ nm ++ " returned: Error: " ++ m
          ++ ", args: " ++ args)) ∧
    (∀ envs fuel i hist r, thinkTick (envs i) hist = .continued r →
      runThink envs (fuel + 1) i hist
        = runThink envs fuel (i + 1) (hist ++ [r])) := by
  refine ⟨fun a envs n => runThinkNDo_length a envs n, ?_, ?_, ?_, ?_, ?_, ?_, ?_⟩
  · intro a env m hw hp
    simp [thinkNDoTick, hw, hp]
  · intro a env st m hw hp hpl
    simp [thinkNDoTick, hw, hp, hpl]
  · intro a env st proposed f hw hp hpl hv
    simp [thinkNDoTick, hw, hp, hpl, hv]
  · intro a env st proposed trig m hw hp hpl hv hx
    simp [thinkNDoTick, hw, hp, hpl, hv, hx]
  · intro env hist m h
    simp [thinkTick, h]
  · intro env hist nm args m hpl hmem hrt hfb
    simp [thinkTick, hpl, hmem, hrt, afterFeedback, hfb]
  · intro envs fuel i hist r h
    simp [runThink, h]

/-- C2 counterexample: in `YeagerAutoGPT.think` an exception raised during
planning (the LLM call or reply parsing) is not caught at the loop
boundary: the iteration crashes and the loop terminates with fuel left,
contradicting the claim that no exception during planning ever terminates
the loop. -/
theorem think_planning_exception_terminates_loop :
    thinkTick envBoomThink [] = .crashed "boom" ∧
    runThink (fun _ => envBoomThink) 5 0 [] = (.crashedRun "boom", []) :=
  ⟨rfl, rfl⟩

/-- Concrete witness for `control_loop_error_handling`: each failing phase
at a concrete environment. -/
theorem control_loop_error_handling_witness :
    (runThinkNDo "maria" (fun _ => envPerceiveErr) 3).length = 3 ∧
    thinkNDoTick "maria" envPerceiveErr
      = (.caught (logMsg "io"),
         [.getUpdatedState, .printError (logMsg "io")]) ∧
    (thinkNDoTick "maria" envPlanErr).1 = .caught (logMsg "llm") ∧
    (thinkNDoTick "maria" envValErr).1
      = .caught (logMsg (failureMessage .UnknownAction)) ∧
    (thinkNDoTick "maria" envExecErr).1 = .caught (logMsg "notfound") ∧
    thinkTick envBoomThink [] = .crashed "boom" ∧
    thinkTick envToolErrThink []
      = .continued ("Command " ++ "get_object_info" ++ " returned: Error: "
          ++ "KeyError" ++ ", args: " ++ "oid") ∧
    runThink (fun _ => envToolErrThink) 1 0 []
      = runThink (fun _ => envToolErrThink) 0 1
          ([] ++ ["Command " ++ "get_object_info" ++ " returned: Error: "
            ++ "KeyError" ++ ", args: " ++ "oid"]) := by
  refine ⟨control_loop_error_handling.1 "maria" (fun _ => envPerceiveErr) 3,
    control_loop_error_handling.2.1 "maria" envPerceiveErr "io" rfl rfl,
    control_loop_error_handling.2.2.1 "maria" envPlanErr demoStateLocal
      "llm" rfl rfl rfl,
    control_loop_error_handling.2.2.2.1 "maria" envValErr demoStateLocal
      ⟨"fly", none, 0, "maria", none⟩ .UnknownAction rfl rfl rfl rfl,
    control_loop_error_handling.2.2.2.2.1 "maria" envExecErr demoStateLocal
      demoProposed demoProposed "notfound" rfl rfl rfl rfl rfl,
    control_loop_error_handling.2.2.2.2.2.1 envBoomThink [] "boom" rfl,
    control_loop_error_handling.2.2.2.2.2.2.1 envToolErrThink []
      "get_object_info" "oid" "KeyError" rfl (by simp [envToolErrThink]) rfl rfl,
    control_loop_error_handling.2.2.2.2.2.2.2 (fun _ => envToolErrThink)
      0 0 [] _ ?_⟩
  exact control_loop_error_handling.2.2.2.2.2.2.1 envToolErrThink []
    "get_object_info" "oid" "KeyError" rfl (by simp [envToolErrThink]) rfl rfl

/-- C8 (amended): `AbstractAgent.think_n_do`'s loop repeats indefinitely
with no terminal state of its own; `YeagerAutoGPT.think` has exactly one
natural terminal state, not triggered by the orchestrator: its loop
returns precisely when the planner signals FINISH.  (The q/stop feedback
exit is dead code: the constructor hard-codes the feedback tool to None,
and the membership test compares a newline-prefixed string that can never
equal q or stop.) -/
theorem loop_termination_amended :
    (∀ agentId envs n, (runThinkNDo agentId envs n).length = n) ∧
    (∀ env hist r, thinkTick env hist = .finished r ↔
      env.planReply hist = .ok (.finish r)) := by
  refine ⟨fun a envs n => runThinkNDo_length a envs n, ?_⟩
  intro env hist r
  constructor
  · intro h
    cases hp : env.planReply hist with
    | error m => simp [thinkTick, hp] at h
    | ok pa =>
        cases pa with
        | finish resp =>
            simp only [thinkTick, hp] at h
            cases h
            rfl
        | errAction args =>
            simp only [thinkTick, hp] at h
            rw [afterFeedback_eq_continued] at h
            cases h
        | cmd nm args =>
            simp only [thinkTick, hp] at h
            by_cases hmem : nm ∈ env.toolNames
            · rw [if_pos hmem] at h
              cases hrt : env.runTool nm args with
              | ok obs =>
                  simp only [hrt, afterFeedback_eq_continued] at h
                  cases h
              | error m =>
                  simp only [hrt, afterFeedback_eq_continued] at h
                  cases h
            · rw [if_neg hmem] at h
              rw [afterFeedback_eq_continued] at h
              cases h
  · intro hp
    simp [thinkTick, hp]

/-- C8 counterexample: the legacy loop has a natural terminal state with
no stop signal from the orchestrator: when the planner signals FINISH, the
loop returns with fuel left. -/
theorem think_finish_is_natural_terminal :
    thinkTick envFinishThink [] = .finished "done" ∧
    runThink (fun _ => envFinishThink) 5 0 [] = (.finishedRun "done", []) :=
  ⟨rfl, rfl⟩

/-- Concrete witness for `loop_termination_amended`. -/
theorem loop_termination_amended_witness :
    (runThinkNDo "maria" (fun _ => envLocalOk) 4).length = 4 ∧
    thinkTick envFinishThink [] = .finished "done" :=
  ⟨loop_termination_amended.1 "maria" (fun _ => envLocalOk) 4,
   (loop_termination_amended.2 envFinishThink [] "done").mpr rfl⟩

/-- C9: `event_type` is immutable once an event is constructed (it is a
class-level constant, unaffected by assignment to any of the pydantic
instance fields), and the system's operations never mutate an event after
creation: every event a tick hands to the executor or the broker is
exactly the event the validator constructed. -/
theorem event_type_immutable_events_unmutated :
    (∀ e v, eventType (setSummary e v) = eventType e) ∧
    (∀ e v, eventType (setCreatedAt e v) = eventType e) ∧
    (∀ e v, eventType (setSenderId e v) = eventType e) ∧
    (∀ e v, eventType (setTargetId e v) = eventType e) ∧
    (∀ agentId env ev, ev ∈ eventsOf (thinkNDoTick agentId env).2 →
      validatedEvent agentId env = some ev) := by
  refine ⟨fun e v => rfl, fun e v => rfl, fun e v => rfl, fun e v => rfl, ?_⟩
  intro a env ev h
  cases hs : env.isAsleep with
  | true => simp [thinkNDoTick, hs, eventsOf] at h
  | false =>
      cases hp : env.perceive with
      | error m => simp [thinkNDoTick, hs, hp, eventsOf] at h
      | ok st =>
          cases hpl : env.plan st with
          | error m => simp [thinkNDoTick, hs, hp, hpl, eventsOf] at h
          | ok proposed =>
              cases hv : validate a proposed st.availableActionSchemas with
              | error f =>
                  simp [thinkNDoTick, hs, hp, hpl, hv, eventsOf] at h
              | ok pr =>
                  obtain ⟨isLocal, trig⟩ := pr
                  cases isLocal with
                  | false =>
                      simp [thinkNDoTick, hs, hp, hpl, hv, eventsOf] at h
                      simp [validatedEvent, hs, hp, hpl, hv, h]
                  | true =>
                      cases hx : env.execute trig with
                      | error m =>
                          simp [thinkNDoTick, hs, hp, hpl, hv, hx,
                            eventsOf] at h
                      | ok u =>
                          simp [thinkNDoTick, hs, hp, hpl, hv, hx,
                            eventsOf] at h
                          simp [validatedEvent, hs, hp, hpl, hv, h]

/-- Concrete witness for `event_type_immutable_events_unmutated`. -/
theorem event_type_immutable_events_unmutated_witness :
    eventType (setSummary demoProposed (some "hello")) = eventType demoProposed ∧
    validatedEvent "maria" envLocalOk = some demoProposed :=
  ⟨event_type_immutable_events_unmutated.1 demoProposed (some "hello"),
   event_type_immutable_events_unmutated.2.2.2.2 "maria" envLocalOk
     demoProposed (by decide)⟩

/-- C10: `YeagerAutoGPT.__init__` extends the caller's
`important_event_types` list object in place with the six built-in event
types, so the caller's list is mutated as a side effect, and the listening
antenna's interest set is the very same object, hence subscribes to the
six built-in types in addition to every configured type. -/
theorem yeager_init_extends_in_place (h : PyHeap) (r : Nat) :
    (yeagerInitEventWiring h r).1.cells r
      = h.cells r ++ builtinImportantEventTypes ∧
    (yeagerInitEventWiring h r).2.importantEventTypesRef = r ∧
    (yeagerInitEventWiring h r).2.antennaInterestRef = r ∧
    (∀ t ∈ builtinImportantEventTypes,
      t ∈ (yeagerInitEventWiring h r).1.cells
            ((yeagerInitEventWiring h r).2.antennaInterestRef)) ∧
    (∀ t ∈ h.cells r,
      t ∈ (yeagerInitEventWiring h r).1.cells
            ((yeagerInitEventWiring h r).2.antennaInterestRef)) := by
  refine ⟨by simp [yeagerInitEventWiring, extendCell], rfl, rfl, ?_, ?_⟩
  · intro t ht
    simp [yeagerInitEventWiring, extendCell]
    exact Or.inr ht
  · intro t ht
    simp [yeagerInitEventWiring, extendCell]
    exact Or.inl ht

/-- Concrete witness for `yeager_init_extends_in_place`: a caller list
configured with one interest type at heap cell 0. -/
theorem yeager_init_extends_in_place_witness :
    (yeagerInitEventWiring demoHeap 0).1.cells 0
      = demoHeap.cells 0 ++ builtinImportantEventTypes ∧
    "agent_gets_object_info" ∈ (yeagerInitEventWiring demoHeap 0).1.cells
      ((yeagerInitEventWiring demoHeap 0).2.antennaInterestRef) ∧
    "agent_speaks_into_microphone"
      ∈ (yeagerInitEventWiring demoHeap 0).1.cells
          ((yeagerInitEventWiring demoHeap 0).2.antennaInterestRef) :=
  ⟨(yeager_init_extends_in_place demoHeap 0).1,
   (yeager_init_extends_in_place demoHeap 0).2.2.2.1
     "agent_gets_object_info" (by simp [builtinImportantEventTypes]),
   (yeager_init_extends_in_place demoHeap 0).2.2.2.2
     "agent_speaks_into_microphone" (by simp [demoHeap])⟩

end Genworlds
